import Mathlib

/-!
Verification development for the sequential audio playback controller of the
AI-Language-storyteller application.

The definitions below are a shallow embedding of the relevant source files:

* `src/utils/audioUtils.ts` — the audio decoder (`decodeBase64`, `decodeAudioData`);
* `src/App.tsx` — the playback state machine (`audioReducer`), the playback
  engine (the `playCurrentSegment` effect, the playback-rate effect, `stopAudio`,
  `handlePlayPauseToggle`, `handleSegmentClick`, `rehydrateAudio`) and the
  `onended` completion callback.

JavaScript numbers that only ever hold small integers are modelled as `Nat`
(with `Int` used where the source compares against a possibly negative value
such as `count - 1`).  The playback rate is only ever stored and copied, never
computed with, so it is modelled exactly as `ℚ`.  Exceptions are modelled with
`Option` / `Except`.  React `useEffect` semantics are modelled explicitly: the
play effect re-runs exactly when its dependency tuple
`(status, currentSegmentIndex, isContinuous, playbackRate)` changes, with its
cleanup (detaching `onended` from the current source node) running first.
-/

/-! ## Audio decoder — `src/utils/audioUtils.ts` -/

/-- Value of one base64 alphabet character, `none` for a character outside the
alphabet (on which `atob` throws `InvalidCharacterError`). -/
def base64CharVal (c : Char) : Option Nat :=
  if 'A' ≤ c ∧ c ≤ 'Z' then some (c.toNat - 65)
  else if 'a' ≤ c ∧ c ≤ 'z' then some (c.toNat - 97 + 26)
  else if '0' ≤ c ∧ c ≤ '9' then some (c.toNat - 48 + 52)
  else if c = '+' then some 62
  else if c = '/' then some 63
  else none

/-- ASCII whitespace, stripped by the forgiving-base64 algorithm behind `atob`. -/
def isAsciiWhitespace (c : Char) : Bool :=
  c = ' ' ∨ c = '\t' ∨ c = '\n' ∨ c = '\x0c' ∨ c = '\r'

/-- Strip at most two trailing `=` padding characters. -/
def dropBase64Padding (cs : List Char) : List Char :=
  match cs.reverse with
  | '=' :: '=' :: rest => rest.reverse
  | '=' :: rest => rest.reverse
  | _ => cs

/-- Turn a list of 6-bit groups into bytes (three bytes per four groups; a
trailing pair or triple of groups yields one or two bytes). -/
def base64GroupsToBytes : List Nat → List Nat
  | a :: b :: c :: d :: rest =>
      (a * 4 + b / 16) :: ((b % 16) * 16 + c / 4) :: ((c % 4) * 64 + d) ::
        base64GroupsToBytes rest
  | [a, b] => [a * 4 + b / 16]
  | [a, b, c] => [a * 4 + b / 16, (b % 16) * 16 + c / 4]
  | _ => []

/-- Model of the browser primitive `atob` (forgiving base64 decode): strip
ASCII whitespace, strip up to two trailing `=` when the length is a multiple
of four, then fail (`none`, modelling the thrown `InvalidCharacterError`) when
the remaining length is `≡ 1 [MOD 4]` or a character is outside the base64
alphabet; otherwise produce the decoded bytes.  `decodeBase64` in
`audioUtils.ts` reads these bytes back out of the returned binary string with
`charCodeAt`, so its result is exactly this byte list. -/
def decodeBase64 (s : String) : Option (List Nat) :=
  let cs0 := s.data.filter (fun c => ¬ isAsciiWhitespace c)
  let cs := if cs0.length % 4 = 0 then dropBase64Padding cs0 else cs0
  if cs.length % 4 = 1 then none
  else if cs.any (fun c => (base64CharVal c).isNone) then none
  else some (base64GroupsToBytes (cs.map (fun c => (base64CharVal c).getD 0)))

/-- Reinterpret two little-endian bytes as a signed 16-bit integer. -/
def toInt16 (lo hi : Nat) : Int :=
  let u := lo + 256 * hi
  if u < 32768 then (u : Int) else (u : Int) - 65536

/-- Read a byte list two bytes at a time as little-endian signed 16-bit
samples (the element view of `new Int16Array(data.buffer)`). -/
def bytesToInt16 : List Nat → List Int
  | lo :: hi :: rest => toInt16 lo hi :: bytesToInt16 rest
  | _ => []

/-- Model of a Web Audio `AudioBuffer`: channel count, frame count, sample
rate, and the channel-0 sample data.  Samples are exact dyadic rationals
(`v / 32768` with `v : Int16`), which float arithmetic represents exactly, so
`ℚ` is a faithful carrier. -/
structure AudioBuffer where
  numberOfChannels : Nat
  length : Nat
  sampleRate : Nat
  channelData : List ℚ
deriving DecidableEq, Repr

/-- The body of the `try` block of `decodeAudioData` (`audioUtils.ts`,
lines 17–30).  Each operation that can throw is explicit:
`decodeBase64`/`atob` throws on malformed base64; the `Int16Array` view
construction throws a `RangeError` when the byte length is odd;
`ctx.createBuffer` throws a `NotSupportedError` when the frame count is zero.
On success it yields the single-channel buffer whose samples are
`dataInt16[i] / 32768.0`. -/
def decodeAudioDataBody (base64Data : String) (ctxSampleRate : Nat) :
    Except String AudioBuffer :=
  match decodeBase64 base64Data with
  | none => .error "atob: InvalidCharacterError"
  | some bytes =>
    if bytes.length % 2 ≠ 0 then .error "Int16Array: RangeError"
    else
      let dataInt16 := bytesToInt16 bytes
      let frameCount := dataInt16.length
      if frameCount = 0 then .error "createBuffer: NotSupportedError"
      else
        .ok { numberOfChannels := 1
              length := frameCount
              sampleRate := ctxSampleRate
              channelData := dataInt16.map (fun v => (v : ℚ) / 32768) }

/-- `decodeAudioData` (`audioUtils.ts`, lines 11–35): returns `null` for an
empty payload, otherwise runs the decoding body and catches every exception,
turning it into `null`. -/
def decodeAudioData (base64Data : String) (ctxSampleRate : Nat) :
    Option AudioBuffer :=
  if base64Data = "" then none
  else
    match decodeAudioDataBody base64Data ctxSampleRate with
    | .ok buffer => some buffer
    | .error _ => none

/-! ## Segment Buffer Store — `rehydrateAudio` in `src/App.tsx` -/

/-- `rehydrateAudio` (`App.tsx`, lines 232–240): decode every payload (an
empty payload short-circuits to `null` via `data ? decodeAudioData(...) :
null`), then keep only the non-null results, in order. -/
def rehydrateAudio (audioData : List String) (ctxSampleRate : Nat) :
    List AudioBuffer :=
  (audioData.map
      (fun data => if data ≠ "" then decodeAudioData data ctxSampleRate else none)).filterMap
    id

/-! ## Playback State Machine — `audioReducer` in `src/App.tsx` -/

/-- The `status` field of `AudioState` (`App.tsx`, line 18). -/
inductive Status where
  | idle
  | playing
  | paused
deriving DecidableEq, Repr

/-- `AudioState` (`App.tsx`, lines 17–21). -/
structure AudioState where
  status : Status
  currentSegmentIndex : Option Nat
  isContinuous : Bool
deriving DecidableEq, Repr

/-- `initialAudioState` (`App.tsx`, lines 29–33). -/
def initialAudioState : AudioState :=
  { status := .idle, currentSegmentIndex := none, isContinuous := false }

/-- `AudioAction` (`App.tsx`, lines 23–27). -/
inductive AudioAction where
  | play (startIndex : Nat) (isContinuous : Bool)
  | pause
  | stop
  | segmentEnded (audioBuffersCount : Nat)
deriving DecidableEq, Repr

/-- `audioReducer` (`App.tsx`, lines 35–66).  The `SEGMENT_ENDED` comparison
`currentSegmentIndex < audioBuffersCount - 1` is JavaScript number
arithmetic, so it is taken over `Int` (`count - 1` is `-1` when the store is
empty). -/
def audioReducer (state : AudioState) (action : AudioAction) : AudioState :=
  match action with
  | .play startIndex isContinuous =>
      { state with
        status := .playing
        currentSegmentIndex := some startIndex
        isContinuous := isContinuous }
  | .pause =>
      if state.status = .playing then { state with status := .paused } else state
  | .stop => initialAudioState
  | .segmentEnded audioBuffersCount =>
      match state.currentSegmentIndex with
      | some i =>
          if state.isContinuous ∧ (i : Int) < (audioBuffersCount : Int) - 1 then
            { state with currentSegmentIndex := some (i + 1) }
          else initialAudioState
      | none => initialAudioState

/-! ## Playback Engine — the effects and handlers of `src/App.tsx`

The engine state gathers the React refs and state hooks that the playback
code reads and writes: `audioState` (the reducer state), `audioBuffersRef`
(slots may be empty to model an absent entry), `sourceNodeRef`,
`playbackRate`, `audioContextRef` (presence, suspended flag, and whether a
`resume()` call would succeed), the `error` message state, a counter
producing fresh source-node identities, and an append-only log of the calls
made on the sound output primitive (`source.start(0)` / `source.stop()`),
which records what is audibly played. -/

/-- A live `AudioBufferSourceNode`: its identity, the index of the buffer it
was bound to, its `playbackRate.value`, and whether its `onended` callback is
still attached (setting `onended = null` detaches it). -/
structure SourceNode where
  id : Nat
  bufferIndex : Nat
  rate : ℚ
  onendedAttached : Bool
deriving DecidableEq, Repr

/-- Calls made on sound sources, in order: `started i b r` is
`source.start(0)` on the fresh source `i` bound to buffer `b` at rate `r`
(always from offset `0`); `stopCalled i` is `source.stop()` on source `i`. -/
inductive EngineEvent where
  | started (id : Nat) (bufferIndex : Nat) (rate : ℚ)
  | stopCalled (id : Nat)
deriving DecidableEq, Repr

/-- The engine state (the playback-relevant slice of the `App` component). -/
structure EngineState where
  audioState : AudioState
  audioBuffers : List (Option AudioBuffer)
  sourceNode : Option SourceNode
  playbackRate : ℚ
  ctxPresent : Bool
  ctxSuspended : Bool
  resumeOk : Bool
  nextId : Nat
  error : Option String
  log : List EngineEvent
deriving DecidableEq, Repr

/-- The dependency tuple of the play effect (`App.tsx`, line 226):
`[audioState.status, audioState.currentSegmentIndex, audioState.isContinuous,
playbackRate]`.  The effect re-runs exactly when this tuple changes. -/
def playEffectDeps (s : EngineState) : Status × Option Nat × Bool × ℚ :=
  (s.audioState.status, s.audioState.currentSegmentIndex,
   s.audioState.isContinuous, s.playbackRate)

/-- The cleanup of the play effect (`App.tsx`, lines 221–225): detach
`onended` from the current source node, if any. -/
def effectCleanup (s : EngineState) : EngineState :=
  match s.sourceNode with
  | some src => { s with sourceNode := some { src with onendedAttached := false } }
  | none => s

/-- `App.tsx`, lines 173–177: detach `onended` from any previous source and
`stop()` it, without clearing the ref. -/
def stopPrevSource (s : EngineState) : EngineState :=
  match s.sourceNode with
  | some src =>
      { s with
        sourceNode := some { src with onendedAttached := false }
        log := s.log ++ [EngineEvent.stopCalled src.id] }
  | none => s

/-- `App.tsx`, lines 190–215 (success path): resume the context if it was
suspended, create a fresh source bound to the buffer at `index` at the
current playback rate, register `onended`, `start(0)` it, and store it in
the ref. -/
def startNewSource (s : EngineState) (index : Nat) : EngineState :=
  let s1 := { s with ctxSuspended := false }
  { s1 with
    sourceNode :=
      some { id := s1.nextId, bufferIndex := index,
             rate := s1.playbackRate, onendedAttached := true }
    nextId := s1.nextId + 1
    log := s1.log ++ [EngineEvent.started s1.nextId index s1.playbackRate] }

/-- One run of the body of the play effect, `playCurrentSegment`
(`App.tsx`, lines 162–216):

1. return unless `status = playing` with a non-null index;
2. if the index is past the end of the buffer store, dispatch `STOP`
   (the source node is *not* touched on this path);
3. otherwise detach and stop any previous source (the ref is not cleared);
4. if the audio context is absent or the buffer slot is empty, dispatch
   `SEGMENT_ENDED` in continuous mode and `STOP` otherwise — no sound;
5. if the context is suspended and `resume()` fails, set the error message
   and dispatch `STOP`;
6. otherwise create a fresh source bound to the buffer at the current
   playback rate, `start(0)` it, attach `onended`, and store it in the ref. -/
def playCurrentSegmentOnce (s : EngineState) : EngineState :=
  if s.audioState.status ≠ .playing then s
  else
    match s.audioState.currentSegmentIndex with
    | none => s
    | some index =>
      if s.audioBuffers.length ≤ index then
        { s with audioState := audioReducer s.audioState .stop }
      else
        let s1 := stopPrevSource s
        if ¬ s1.ctxPresent ∨ s1.audioBuffers.getD index none = none then
          if s1.audioState.isContinuous then
            { s1 with
              audioState :=
                audioReducer s1.audioState (.segmentEnded s1.audioBuffers.length) }
          else
            { s1 with audioState := audioReducer s1.audioState .stop }
        else
          if s1.ctxSuspended ∧ ¬ s1.resumeOk then
            { s1 with
              error := some "Could not play audio. Please interact with the page and try again."
              audioState := audioReducer s1.audioState .stop }
          else
            startNewSource s1 index

/-- Run the play effect to quiescence: run the body; if it dispatched (the
dependency tuple changed), run the cleanup and the body again, and so on.
The fuel argument bounds the number of re-runs; `audioBuffers.length + 2`
always suffices (each dispatch either advances the index or leaves a state
on which the body is inert). -/
def runPlayEffect : Nat → EngineState → EngineState
  | 0, s => s
  | fuel + 1, s =>
      let s1 := playCurrentSegmentOnce s
      if playEffectDeps s1 = playEffectDeps s then s1
      else runPlayEffect fuel (effectCleanup s1)

/-- Dispatch an action to the reducer and let React settle: if the new state
leaves the play effect's dependency tuple unchanged the effect does not
re-run; otherwise its cleanup and body run to quiescence. -/
def dispatchAndRun (s : EngineState) (a : AudioAction) : EngineState :=
  let s1 := { s with audioState := audioReducer s.audioState a }
  if playEffectDeps s1 = playEffectDeps s then s1
  else runPlayEffect (s1.audioBuffers.length + 2) (effectCleanup s1)

/-- `App.tsx`, lines 143–151 and 277–281 (the identical blocks in `stopAudio`
and `handlePlayPauseToggle`): detach `onended` from the current source,
`stop()` it, and clear the ref. -/
def detachAndClearSource (s : EngineState) : EngineState :=
  match s.sourceNode with
  | some src =>
      { s with sourceNode := none, log := s.log ++ [EngineEvent.stopCalled src.id] }
  | none => s

/-- `stopAudio` (`App.tsx`, lines 142–153): detach `onended`, `stop()` the
source, clear the ref, and dispatch `STOP`. -/
def stopAudio (s : EngineState) : EngineState :=
  dispatchAndRun (detachAndClearSource s) .stop

/-- The playback-rate effect (`App.tsx`, lines 155–159) together with the
re-run of the play effect that the same `playbackRate` change triggers
(`playbackRate` is in the play effect's dependency array, line 226): set the
new rate, apply it to the live source if any, then run the play effect's
cleanup and body.  A `setPlaybackRate` call with the current value is a
no-op (React bails out on identical state). -/
def applyRateToLiveSource (s : EngineState) (r : ℚ) : EngineState :=
  match s.sourceNode with
  | some src => { s with sourceNode := some { src with rate := r } }
  | none => s

def setPlaybackRate (s : EngineState) (r : ℚ) : EngineState :=
  if r = s.playbackRate then s
  else
    let s2 := applyRateToLiveSource { s with playbackRate := r } r
    runPlayEffect (s2.audioBuffers.length + 2) (effectCleanup s2)

/-- `handlePlayPauseToggle` (`App.tsx`, lines 275–288): when playing, detach,
stop and clear the source and dispatch `PAUSE`; otherwise dispatch `PLAY`
from the retained index (or `0`), in continuous mode. -/
def handlePlayPauseToggle (s : EngineState) : EngineState :=
  if s.audioState.status = .playing then
    dispatchAndRun (detachAndClearSource s) .pause
  else
    let startIndex := s.audioState.currentSegmentIndex.getD 0
    dispatchAndRun s (.play startIndex true)

/-- `handleSegmentClick` (`App.tsx`, lines 290–298): clicking the currently
playing segment toggles (pauses); any other click starts single-segment play
at the clicked transcript index. -/
def handleSegmentClick (s : EngineState) (index : Nat) : EngineState :=
  if s.audioState.status = .playing ∧ s.audioState.currentSegmentIndex = some index then
    handlePlayPauseToggle s
  else
    dispatchAndRun s (.play index false)

/-- The `onended` completion callback (`App.tsx`, lines 207–212) firing from
the source with identity `sid`: the callback runs only if it is still
attached, and dispatches `SEGMENT_ENDED` only when its captured source is
still the currently registered one (`sourceNodeRef.current === source`). -/
def handleSourceEnded (s : EngineState) (sid : Nat) : EngineState :=
  match s.sourceNode with
  | some src =>
      if src.id = sid ∧ src.onendedAttached then
        dispatchAndRun s (.segmentEnded s.audioBuffers.length)
      else s
  | none => s

/-- Loading a new story (or changing language/options): `stopAudio()` first,
then `rehydrateAudio` replaces the buffer store (creating the audio context
if needed). -/
def loadStory (s : EngineState) (bufs : List (Option AudioBuffer)) : EngineState :=
  let s1 := stopAudio s
  { s1 with audioBuffers := bufs, ctxPresent := true }

/-- The engine state for a freshly mounted component that has rehydrated the
given buffer store. -/
def mkInitial (bufs : List (Option AudioBuffer)) (rate : ℚ) : EngineState :=
  { audioState := initialAudioState
    audioBuffers := bufs
    sourceNode := none
    playbackRate := rate
    ctxPresent := true
    ctxSuspended := false
    resumeOk := true
    nextId := 0
    error := none
    log := [] }

/-- External inputs driving the engine. -/
inductive InputEvent where
  | togglePlayPause
  | segmentClick (index : Nat)
  | stopClick
  | setRate (r : ℚ)
  | sourceEnded (sid : Nat)
  | newStory (bufs : List (Option AudioBuffer))
deriving Repr

/-- Process one external input. -/
def stepEvent (s : EngineState) : InputEvent → EngineState
  | .togglePlayPause => handlePlayPauseToggle s
  | .segmentClick i => handleSegmentClick s i
  | .stopClick => stopAudio s
  | .setRate r => setPlaybackRate s r
  | .sourceEnded sid => handleSourceEnded s sid
  | .newStory bufs => loadStory s bufs

/-- Natural completion of the currently live source, if any. -/
def feedEnd (s : EngineState) : EngineState :=
  match s.sourceNode with
  | some src => handleSourceEnded s src.id
  | none => s

/-- `currentSegmentIndex` of the given machine state is `null` or a valid
index for a store of `len` buffers. -/
def indexOkA (st : AudioState) (len : Nat) : Prop :=
  match st.currentSegmentIndex with
  | none => True
  | some i => i < len

instance (st : AudioState) (len : Nat) : Decidable (indexOkA st len) := by
  unfold indexOkA
  exact match st.currentSegmentIndex with
  | none => inferInstanceAs (Decidable True)
  | some _ => inferInstanceAs (Decidable (_ < _))

/-- The invariant of claim C2: `currentSegmentIndex` is `null` or a valid
index into the buffer store. -/
def indexOk (s : EngineState) : Prop :=
  indexOkA s.audioState s.audioBuffers.length

/-- The `start(0)` calls recorded in the log, i.e. what was audibly played. -/
def startedEvents (l : List EngineEvent) : List EngineEvent :=
  l.filter (fun e => match e with | .started .. => true | .stopCalled _ => false)

/-! ## Lemmas about the decoder and the buffer store -/

theorem decodeAudioData_empty (sr : Nat) : decodeAudioData "" sr = none := by
  simp [decodeAudioData]

theorem rehydrateAudio_eq_filterMap (l : List String) (sr : Nat) :
    rehydrateAudio l sr = l.filterMap (fun d => decodeAudioData d sr) := by
  have hfun :
      (fun d => if d ≠ "" then decodeAudioData d sr else none) =
        fun d => decodeAudioData d sr := by
    funext d
    by_cases hd : d = ""
    · simp [hd, decodeAudioData_empty]
    · simp [hd]
  rw [rehydrateAudio, List.filterMap_map, Function.id_comp, hfun]

theorem filterMap_map_some_sublist {α β : Type} (g : α → Option β) :
    ∀ l : List α, ((l.filterMap g).map some).Sublist (l.map g)
  | [] => by simp
  | a :: t => by
    cases h : g a with
    | none =>
        simpa [List.filterMap_cons, h] using
          (filterMap_map_some_sublist g t).cons (g a)
    | some b =>
        simpa [List.filterMap_cons, h] using
          (filterMap_map_some_sublist g t).cons₂ (g a)

theorem decodeAudioDataBody_ok_channels (s : String) (sr : Nat) (b : AudioBuffer)
    (h : decodeAudioDataBody s sr = .ok b) : b.numberOfChannels = 1 := by
  unfold decodeAudioDataBody at h
  split at h
  · exact absurd h (by simp)
  · split at h
    · exact absurd h (by simp)
    · dsimp only at h
      split at h
      · exact absurd h (by simp)
      · cases h
        rfl

/-! ## Claims C4 and C7 -/

/-- C4: for every payload sequence, `rehydrate` stores exactly the non-null
decode results: the buffer list is no longer than the payload list, every
stored buffer is the decoding of a non-empty decodable payload, and the
stored buffers appear in the same relative order as their payloads (the
stored list, wrapped in `some`, is a sublist of the pointwise decode
results); empty or undecodable payloads contribute no entry. -/
theorem C4_rehydrate_stores_compacted (l : List String) (sr : Nat) :
    (rehydrateAudio l sr).length ≤ l.length
    ∧ (∀ b ∈ rehydrateAudio l sr, ∃ d ∈ l, d ≠ "" ∧ decodeAudioData d sr = some b)
    ∧ ((rehydrateAudio l sr).map some).Sublist
        (l.map (fun d => decodeAudioData d sr)) := by
  refine ⟨?_, ?_, ?_⟩
  · rw [rehydrateAudio_eq_filterMap]
    exact List.length_filterMap_le _ _
  · intro b hb
    rw [rehydrateAudio_eq_filterMap] at hb
    rcases List.mem_filterMap.1 hb with ⟨d, hd, hdec⟩
    refine ⟨d, hd, ?_, hdec⟩
    rintro rfl
    rw [decodeAudioData_empty] at hdec
    cases hdec
  · rw [rehydrateAudio_eq_filterMap]
    exact filterMap_map_some_sublist _ l

theorem C4_witness :
    ∃ b ∈ rehydrateAudio ["AAA="] 24000,
      ∃ d ∈ ["AAA="], d ≠ "" ∧ decodeAudioData d 24000 = some b := by
  have hs : (decodeAudioData "AAA=" 24000).isSome = true := by decide
  rcases hb : decodeAudioData "AAA=" 24000 with _ | b
  · rw [hb] at hs
    cases hs
  · have hmem : b ∈ rehydrateAudio ["AAA="] 24000 := by
      rw [rehydrateAudio_eq_filterMap]
      exact List.mem_filterMap.mpr ⟨"AAA=", by simp, hb⟩
    exact ⟨b, hmem, (C4_rehydrate_stores_compacted ["AAA="] 24000).2.1 b hmem⟩

/-- C7: the decoder never throws — it returns `null` for the empty payload,
`null` whenever the decoding body raises (base64 decoding, 16-bit
reinterpretation, or buffer construction failing), and otherwise a
single-channel buffer; callers always receive `null` as an ordinary value. -/
theorem C7_decoder_never_throws (s : String) (sr : Nat) :
    (s = "" → decodeAudioData s sr = none)
    ∧ (∀ e, decodeAudioDataBody s sr = .error e → decodeAudioData s sr = none)
    ∧ (decodeBase64 s = none → decodeAudioData s sr = none)
    ∧ (∀ bytes, decodeBase64 s = some bytes → bytes.length % 2 = 1 →
        decodeAudioData s sr = none)
    ∧ (∀ b, decodeAudioData s sr = some b →
        decodeAudioDataBody s sr = .ok b ∧ b.numberOfChannels = 1) := by
  refine ⟨?_, ?_, ?_, ?_, ?_⟩
  · rintro rfl
    exact decodeAudioData_empty sr
  · intro e he
    by_cases hs : s = "" <;> simp [decodeAudioData, hs, he]
  · intro h
    by_cases hs : s = "" <;> simp [decodeAudioData, decodeAudioDataBody, hs, h]
  · intro bytes hb hodd
    by_cases hs : s = "" <;>
      simp [decodeAudioData, decodeAudioDataBody, hs, hb, hodd]
  · intro b h
    unfold decodeAudioData at h
    by_cases hs : s = ""
    · rw [if_pos hs] at h
      cases h
    · rw [if_neg hs] at h
      rcases hbody : decodeAudioDataBody s sr with e | b2 <;> rw [hbody] at h
      · cases h
      · obtain rfl : b2 = b := by injection h
        exact ⟨rfl, decodeAudioDataBody_ok_channels s sr _ hbody⟩

theorem C7_witness : decodeAudioData "" 24000 = none :=
  (C7_decoder_never_throws "" 24000).1 rfl

/-! ## Field lemmas for the engine primitives -/

@[simp]
theorem stopPrevSource_audioState (s : EngineState) :
    (stopPrevSource s).audioState = s.audioState := by
  unfold stopPrevSource
  split <;> rfl

@[simp]
theorem stopPrevSource_audioBuffers (s : EngineState) :
    (stopPrevSource s).audioBuffers = s.audioBuffers := by
  unfold stopPrevSource
  split <;> rfl

@[simp]
theorem stopPrevSource_playbackRate (s : EngineState) :
    (stopPrevSource s).playbackRate = s.playbackRate := by
  unfold stopPrevSource
  split <;> rfl

@[simp]
theorem stopPrevSource_ctxPresent (s : EngineState) :
    (stopPrevSource s).ctxPresent = s.ctxPresent := by
  unfold stopPrevSource
  split <;> rfl

@[simp]
theorem stopPrevSource_ctxSuspended (s : EngineState) :
    (stopPrevSource s).ctxSuspended = s.ctxSuspended := by
  unfold stopPrevSource
  split <;> rfl

@[simp]
theorem stopPrevSource_resumeOk (s : EngineState) :
    (stopPrevSource s).resumeOk = s.resumeOk := by
  unfold stopPrevSource
  split <;> rfl

@[simp]
theorem stopPrevSource_nextId (s : EngineState) :
    (stopPrevSource s).nextId = s.nextId := by
  unfold stopPrevSource
  split <;> rfl

@[simp]
theorem stopPrevSource_error (s : EngineState) :
    (stopPrevSource s).error = s.error := by
  unfold stopPrevSource
  split <;> rfl

theorem stopPrevSource_startedEvents (s : EngineState) :
    startedEvents (stopPrevSource s).log = startedEvents s.log := by
  unfold stopPrevSource
  split
  · simp [startedEvents]
  · rfl

@[simp]
theorem startNewSource_audioState (s : EngineState) (i : Nat) :
    (startNewSource s i).audioState = s.audioState := rfl

@[simp]
theorem startNewSource_audioBuffers (s : EngineState) (i : Nat) :
    (startNewSource s i).audioBuffers = s.audioBuffers := rfl

@[simp]
theorem startNewSource_playbackRate (s : EngineState) (i : Nat) :
    (startNewSource s i).playbackRate = s.playbackRate := rfl

@[simp]
theorem startNewSource_sourceNode (s : EngineState) (i : Nat) :
    (startNewSource s i).sourceNode =
      some { id := s.nextId, bufferIndex := i, rate := s.playbackRate,
             onendedAttached := true } := rfl

@[simp]
theorem effectCleanup_audioState (s : EngineState) :
    (effectCleanup s).audioState = s.audioState := by
  unfold effectCleanup
  split <;> rfl

@[simp]
theorem effectCleanup_audioBuffers (s : EngineState) :
    (effectCleanup s).audioBuffers = s.audioBuffers := by
  unfold effectCleanup
  split <;> rfl

@[simp]
theorem effectCleanup_playbackRate (s : EngineState) :
    (effectCleanup s).playbackRate = s.playbackRate := by
  unfold effectCleanup
  split <;> rfl

@[simp]
theorem effectCleanup_ctxPresent (s : EngineState) :
    (effectCleanup s).ctxPresent = s.ctxPresent := by
  unfold effectCleanup
  split <;> rfl

@[simp]
theorem effectCleanup_ctxSuspended (s : EngineState) :
    (effectCleanup s).ctxSuspended = s.ctxSuspended := by
  unfold effectCleanup
  split <;> rfl

@[simp]
theorem effectCleanup_resumeOk (s : EngineState) :
    (effectCleanup s).resumeOk = s.resumeOk := by
  unfold effectCleanup
  split <;> rfl

theorem playEffectDeps_stopPrevSource (s : EngineState) :
    playEffectDeps (stopPrevSource s) = playEffectDeps s := by
  simp [playEffectDeps]

theorem playEffectDeps_effectCleanup (s : EngineState) :
    playEffectDeps (effectCleanup s) = playEffectDeps s := by
  simp [playEffectDeps]

theorem playEffectDeps_startNewSource (s : EngineState) (i : Nat) :
    playEffectDeps (startNewSource s i) = playEffectDeps s := by
  simp [playEffectDeps]

/-! ## Branch lemmas for the play effect body -/

theorem playOnce_not_playing (s : EngineState)
    (h : s.audioState.status ≠ .playing) :
    playCurrentSegmentOnce s = s := by
  unfold playCurrentSegmentOnce
  rw [if_pos h]

theorem playOnce_no_index (s : EngineState)
    (h : s.audioState.currentSegmentIndex = none) :
    playCurrentSegmentOnce s = s := by
  unfold playCurrentSegmentOnce
  by_cases hp : s.audioState.status ≠ .playing
  · rw [if_pos hp]
  · rw [if_neg hp, h]

theorem playOnce_past_end (s : EngineState) (i : Nat)
    (hp : s.audioState.status = .playing)
    (hi : s.audioState.currentSegmentIndex = some i)
    (hl : s.audioBuffers.length ≤ i) :
    playCurrentSegmentOnce s = { s with audioState := initialAudioState } := by
  unfold playCurrentSegmentOnce
  rw [if_neg (by simp [hp]), hi]
  simp only [audioReducer]
  rw [if_pos hl]

theorem playOnce_missing_continuous (s : EngineState) (i : Nat)
    (hp : s.audioState.status = .playing)
    (hi : s.audioState.currentSegmentIndex = some i)
    (hl : i < s.audioBuffers.length)
    (hmiss : ¬ s.ctxPresent ∨ s.audioBuffers.getD i none = none)
    (hcont : s.audioState.isContinuous = true) :
    playCurrentSegmentOnce s =
      { stopPrevSource s with
        audioState := audioReducer s.audioState (.segmentEnded s.audioBuffers.length) } := by
  unfold playCurrentSegmentOnce
  rw [if_neg (by simp [hp]), hi]
  simp only
  rw [if_neg (by omega), if_pos (by simpa using hmiss)]
  rw [if_pos (by simpa using hcont)]
  simp

theorem playOnce_missing_single (s : EngineState) (i : Nat)
    (hp : s.audioState.status = .playing)
    (hi : s.audioState.currentSegmentIndex = some i)
    (hl : i < s.audioBuffers.length)
    (hmiss : ¬ s.ctxPresent ∨ s.audioBuffers.getD i none = none)
    (hcont : s.audioState.isContinuous = false) :
    playCurrentSegmentOnce s =
      { stopPrevSource s with audioState := initialAudioState } := by
  unfold playCurrentSegmentOnce
  rw [if_neg (by simp [hp]), hi]
  simp only
  rw [if_neg (by omega), if_pos (by simpa using hmiss)]
  rw [if_neg (by simp [hcont])]
  simp [audioReducer]

theorem playOnce_resume_fail (s : EngineState) (i : Nat)
    (hp : s.audioState.status = .playing)
    (hi : s.audioState.currentSegmentIndex = some i)
    (hl : i < s.audioBuffers.length)
    (hpresent : s.ctxPresent = true)
    (hbuf : s.audioBuffers.getD i none ≠ none)
    (hsusp : s.ctxSuspended = true) (hres : s.resumeOk = false) :
    playCurrentSegmentOnce s =
      { stopPrevSource s with
        error := some "Could not play audio. Please interact with the page and try again."
        audioState := initialAudioState } := by
  unfold playCurrentSegmentOnce
  rw [if_neg (by simp [hp]), hi]
  simp only
  rw [if_neg (by omega),
      if_neg (by
        simp only [stopPrevSource_ctxPresent, stopPrevSource_audioBuffers, not_or]
        exact ⟨not_not_intro (by simp [hpresent]), hbuf⟩),
      if_pos (by simp [hsusp, hres])]
  simp [audioReducer]

theorem playOnce_start (s : EngineState) (i : Nat)
    (hp : s.audioState.status = .playing)
    (hi : s.audioState.currentSegmentIndex = some i)
    (hl : i < s.audioBuffers.length)
    (hpresent : s.ctxPresent = true)
    (hbuf : s.audioBuffers.getD i none ≠ none)
    (hok : s.ctxSuspended = false ∨ s.resumeOk = true) :
    playCurrentSegmentOnce s = startNewSource (stopPrevSource s) i := by
  unfold playCurrentSegmentOnce
  rw [if_neg (by simp [hp]), hi]
  simp only
  rw [if_neg (by omega),
      if_neg (by
        simp only [stopPrevSource_ctxPresent, stopPrevSource_audioBuffers, not_or]
        exact ⟨not_not_intro (by simp [hpresent]), hbuf⟩)]
  rcases hok with h | h <;> rw [if_neg (by simp [h])]

/-! ## The effect loop -/

theorem runPlayEffect_zero (s : EngineState) : runPlayEffect 0 s = s := rfl

theorem runPlayEffect_succ_fix (fuel : Nat) (s : EngineState)
    (h : playEffectDeps (playCurrentSegmentOnce s) = playEffectDeps s) :
    runPlayEffect (fuel + 1) s = playCurrentSegmentOnce s := by
  rw [runPlayEffect, if_pos h]

theorem runPlayEffect_succ_step (fuel : Nat) (s : EngineState)
    (h : playEffectDeps (playCurrentSegmentOnce s) ≠ playEffectDeps s) :
    runPlayEffect (fuel + 1) s =
      runPlayEffect fuel (effectCleanup (playCurrentSegmentOnce s)) := by
  rw [runPlayEffect, if_neg h]

theorem runPlayEffect_inert (n : Nat) (s : EngineState)
    (h : playCurrentSegmentOnce s = s) : runPlayEffect n s = s := by
  cases n with
  | zero => rfl
  | succ m => rw [runPlayEffect_succ_fix m s (by rw [h]), h]

theorem runPlayEffect_not_playing (n : Nat) (s : EngineState)
    (h : s.audioState.status ≠ .playing) : runPlayEffect n s = s :=
  runPlayEffect_inert n s (playOnce_not_playing s h)

/-! ## Settling of the effect loop -/

theorem audioReducer_segmentEnded_cases (st : AudioState) (len i : Nat)
    (hi : st.currentSegmentIndex = some i) :
    (st.isContinuous = true ∧ i + 1 < len ∧
      audioReducer st (.segmentEnded len) = { st with currentSegmentIndex := some (i + 1) })
    ∨ audioReducer st (.segmentEnded len) = initialAudioState := by
  by_cases hc : (st.isContinuous = true) ∧ (i : Int) < (len : Int) - 1
  · exact Or.inl ⟨hc.1, by omega, by simp only [audioReducer, hi]; rw [if_pos hc]⟩
  · exact Or.inr (by simp only [audioReducer, hi]; rw [if_neg hc])

/-- Upper bound on the number of body runs the play effect needs before it
reaches quiescence. -/
def playFuel (s : EngineState) : Nat :=
  match s.audioState.status, s.audioState.currentSegmentIndex with
  | .playing, some i => s.audioBuffers.length + 2 - min i s.audioBuffers.length
  | _, _ => 1

theorem playFuel_pos (s : EngineState) : 1 ≤ playFuel s := by
  unfold playFuel
  split <;> omega

theorem playFuel_eq (s : EngineState) (j : Nat)
    (hp : s.audioState.status = .playing)
    (hj : s.audioState.currentSegmentIndex = some j) :
    playFuel s = s.audioBuffers.length + 2 - min j s.audioBuffers.length := by
  unfold playFuel
  rw [hp, hj]

/-- The quiescent states the play effect leaves behind: the current index is
in range (or null), and in `playing` status there is a non-null index and a
live source with its completion callback attached. -/
def settled (t : EngineState) : Prop :=
  indexOk t ∧
  (t.audioState.status = .playing →
    (∃ i, t.audioState.currentSegmentIndex = some i) ∧
    ∃ src, t.sourceNode = some src ∧ src.onendedAttached = true)

theorem settled_of_initial (t : EngineState)
    (h : t.audioState = initialAudioState) : settled t := by
  refine ⟨?_, ?_⟩
  · simp [indexOk, indexOkA, h, initialAudioState]
  · intro hp
    rw [h] at hp
    cases hp

theorem runPlayEffect_settles (fuel : Nat) (s : EngineState)
    (hfuel : playFuel s ≤ fuel)
    (h1 : s.audioState.status = .playing →
      ∃ i, s.audioState.currentSegmentIndex = some i)
    (h2 : s.audioState.status ≠ .playing → indexOk s) :
    settled (runPlayEffect fuel s) := by
  induction fuel generalizing s with
  | zero =>
      have := playFuel_pos s
      omega
  | succ fuel ih =>
      by_cases hp : s.audioState.status = .playing
      · obtain ⟨i, hi⟩ := h1 hp
        by_cases hl : s.audioBuffers.length ≤ i
        · -- past the end of the store: the body dispatches STOP
          have hbody := playOnce_past_end s i hp hi hl
          rw [runPlayEffect_succ_step fuel s
              (by rw [hbody]; simp [playEffectDeps, initialAudioState, hp])]
          rw [hbody, runPlayEffect_not_playing _ _ (by simp [initialAudioState])]
          exact settled_of_initial _ (by simp [initialAudioState])
        · have hl' : i < s.audioBuffers.length := by omega
          by_cases hmiss : ¬ (s.ctxPresent = true) ∨ s.audioBuffers.getD i none = none
          · -- missing buffer (or missing context)
            cases hc : s.audioState.isContinuous with
            | true =>
                have hbody := playOnce_missing_continuous s i hp hi hl' hmiss hc
                rcases audioReducer_segmentEnded_cases s.audioState
                    s.audioBuffers.length i hi with ⟨_, hlt, hred⟩ | hred
                · -- auto-advance to i + 1
                  rw [runPlayEffect_succ_step fuel s
                      (by rw [hbody, hred]; simp [playEffectDeps, hi])]
                  apply ih
                  · rw [playFuel_eq _ (i + 1)
                        (by simp [hbody, hred, hp]) (by simp [hbody, hred])]
                    rw [playFuel_eq s i hp hi] at hfuel
                    simp only [hbody]
                    simp only [effectCleanup_audioBuffers, stopPrevSource_audioBuffers]
                    omega
                  · intro _
                    exact ⟨i + 1, by simp [hbody, hred]⟩
                  · intro hnp
                    exact absurd (by simp [hbody, hred, hp]) hnp
                · -- end of story
                  rw [runPlayEffect_succ_step fuel s
                      (by rw [hbody, hred]; simp [playEffectDeps, initialAudioState, hp])]
                  rw [hbody, hred,
                      runPlayEffect_not_playing _ _ (by simp [initialAudioState])]
                  exact settled_of_initial _ (by simp [initialAudioState])
            | false =>
                have hbody := playOnce_missing_single s i hp hi hl' hmiss hc
                rw [runPlayEffect_succ_step fuel s
                    (by rw [hbody]; simp [playEffectDeps, initialAudioState, hp])]
                rw [hbody, runPlayEffect_not_playing _ _ (by simp [initialAudioState])]
                exact settled_of_initial _ (by simp [initialAudioState])
          · rcases not_or.mp hmiss with ⟨hcp', hbuf⟩
            have hcp : s.ctxPresent = true := not_not.mp hcp'
            by_cases hsr : s.ctxSuspended = true ∧ s.resumeOk = false
            · -- resume failure
              have hbody := playOnce_resume_fail s i hp hi hl' hcp hbuf hsr.1 hsr.2
              rw [runPlayEffect_succ_step fuel s
                  (by rw [hbody]; simp [playEffectDeps, initialAudioState, hp])]
              rw [hbody, runPlayEffect_not_playing _ _ (by simp [initialAudioState])]
              exact settled_of_initial _ (by simp [initialAudioState])
            · -- the success path: a fresh source is created and started
              have hok : s.ctxSuspended = false ∨ s.resumeOk = true := by
                cases hcs : s.ctxSuspended with
                | false => exact Or.inl rfl
                | true =>
                    cases hro : s.resumeOk with
                    | false => exact absurd ⟨hcs, hro⟩ hsr
                    | true => exact Or.inr rfl
              have hbody := playOnce_start s i hp hi hl' hcp hbuf hok
              rw [runPlayEffect_succ_fix fuel s
                  (by rw [hbody, playEffectDeps_startNewSource,
                          playEffectDeps_stopPrevSource])]
              rw [hbody]
              refine ⟨?_, fun _ => ⟨⟨i, by simp [hi]⟩, ?_⟩⟩
              · simp [indexOk, indexOkA, hi, hl']
              · exact ⟨_, startNewSource_sourceNode _ _, rfl⟩
      · rw [runPlayEffect_not_playing _ s hp]
        exact ⟨h2 hp, fun h => absurd h hp⟩

/-! ## More primitive lemmas for computing handler results -/

theorem stopPrevSource_of_none (s : EngineState) (h : s.sourceNode = none) :
    stopPrevSource s = s := by
  unfold stopPrevSource
  rw [h]

theorem stopPrevSource_of_some (s : EngineState) (u : SourceNode)
    (h : s.sourceNode = some u) :
    stopPrevSource s =
      { s with sourceNode := some { u with onendedAttached := false },
               log := s.log ++ [EngineEvent.stopCalled u.id] } := by
  unfold stopPrevSource
  rw [h]

theorem effectCleanup_of_none (s : EngineState) (h : s.sourceNode = none) :
    effectCleanup s = s := by
  unfold effectCleanup
  rw [h]

theorem effectCleanup_of_some (s : EngineState) (u : SourceNode)
    (h : s.sourceNode = some u) :
    effectCleanup s =
      { s with sourceNode := some { u with onendedAttached := false } } := by
  unfold effectCleanup
  rw [h]

@[simp]
theorem effectCleanup_nextId (s : EngineState) :
    (effectCleanup s).nextId = s.nextId := by
  unfold effectCleanup
  split <;> rfl

@[simp]
theorem effectCleanup_log (s : EngineState) :
    (effectCleanup s).log = s.log := by
  unfold effectCleanup
  split <;> rfl

@[simp]
theorem effectCleanup_error (s : EngineState) :
    (effectCleanup s).error = s.error := by
  unfold effectCleanup
  split <;> rfl

@[simp]
theorem startNewSource_nextId (s : EngineState) (i : Nat) :
    (startNewSource s i).nextId = s.nextId + 1 := rfl

@[simp]
theorem startNewSource_log (s : EngineState) (i : Nat) :
    (startNewSource s i).log =
      s.log ++ [EngineEvent.started s.nextId i s.playbackRate] := rfl

@[simp]
theorem startNewSource_error (s : EngineState) (i : Nat) :
    (startNewSource s i).error = s.error := rfl

@[simp]
theorem startNewSource_ctxPresent (s : EngineState) (i : Nat) :
    (startNewSource s i).ctxPresent = s.ctxPresent := rfl

@[simp]
theorem startNewSource_ctxSuspended (s : EngineState) (i : Nat) :
    (startNewSource s i).ctxSuspended = false := rfl

@[simp]
theorem startNewSource_resumeOk (s : EngineState) (i : Nat) :
    (startNewSource s i).resumeOk = s.resumeOk := rfl

theorem detachAndClearSource_of_none (s : EngineState) (h : s.sourceNode = none) :
    detachAndClearSource s = s := by
  unfold detachAndClearSource
  rw [h]

theorem detachAndClearSource_of_some (s : EngineState) (u : SourceNode)
    (h : s.sourceNode = some u) :
    detachAndClearSource s =
      { s with sourceNode := none,
               log := s.log ++ [EngineEvent.stopCalled u.id] } := by
  unfold detachAndClearSource
  rw [h]

@[simp]
theorem detachAndClearSource_sourceNode (s : EngineState) :
    (detachAndClearSource s).sourceNode = none := by
  unfold detachAndClearSource
  split
  · rfl
  · next h => exact h

@[simp]
theorem detachAndClearSource_audioState (s : EngineState) :
    (detachAndClearSource s).audioState = s.audioState := by
  unfold detachAndClearSource
  split <;> rfl

@[simp]
theorem detachAndClearSource_audioBuffers (s : EngineState) :
    (detachAndClearSource s).audioBuffers = s.audioBuffers := by
  unfold detachAndClearSource
  split <;> rfl

@[simp]
theorem detachAndClearSource_playbackRate (s : EngineState) :
    (detachAndClearSource s).playbackRate = s.playbackRate := by
  unfold detachAndClearSource
  split <;> rfl

@[simp]
theorem detachAndClearSource_ctxPresent (s : EngineState) :
    (detachAndClearSource s).ctxPresent = s.ctxPresent := by
  unfold detachAndClearSource
  split <;> rfl

@[simp]
theorem detachAndClearSource_ctxSuspended (s : EngineState) :
    (detachAndClearSource s).ctxSuspended = s.ctxSuspended := by
  unfold detachAndClearSource
  split <;> rfl

@[simp]
theorem detachAndClearSource_resumeOk (s : EngineState) :
    (detachAndClearSource s).resumeOk = s.resumeOk := by
  unfold detachAndClearSource
  split <;> rfl

@[simp]
theorem detachAndClearSource_nextId (s : EngineState) :
    (detachAndClearSource s).nextId = s.nextId := by
  unfold detachAndClearSource
  split <;> rfl

@[simp]
theorem detachAndClearSource_error (s : EngineState) :
    (detachAndClearSource s).error = s.error := by
  unfold detachAndClearSource
  split <;> rfl

theorem runPlayEffect_pos_fix (n : Nat) (hn : 1 ≤ n) (s : EngineState)
    (h : playEffectDeps (playCurrentSegmentOnce s) = playEffectDeps s) :
    runPlayEffect n s = playCurrentSegmentOnce s := by
  cases n with
  | zero => omega
  | succ m => exact runPlayEffect_succ_fix m s h

/-! ## Result lemmas for the dispatch paths -/

theorem dispatch_stop_of_srcNone (t : EngineState) (h : t.sourceNode = none) :
    dispatchAndRun t .stop = { t with audioState := initialAudioState } := by
  unfold dispatchAndRun
  dsimp only
  split
  · rfl
  · rw [effectCleanup_of_none _ (by exact h),
        runPlayEffect_not_playing _ _ (by simp [audioReducer, initialAudioState])]
    rfl

theorem stopAudio_eq (s : EngineState) :
    stopAudio s = { detachAndClearSource s with audioState := initialAudioState } := by
  unfold stopAudio
  exact dispatch_stop_of_srcNone _ (detachAndClearSource_sourceNode s)

theorem stopAudio_audioState (s : EngineState) :
    (stopAudio s).audioState = initialAudioState := by
  rw [stopAudio_eq]

theorem stopAudio_sourceNode (s : EngineState) :
    (stopAudio s).sourceNode = none := by
  rw [stopAudio_eq]
  exact detachAndClearSource_sourceNode s

theorem dispatch_pause_from_playing (t : EngineState)
    (hp : t.audioState.status = .playing) (hsrc : t.sourceNode = none) :
    dispatchAndRun t .pause =
      { t with audioState := { t.audioState with status := .paused } } := by
  have hred : audioReducer t.audioState .pause =
      { t.audioState with status := .paused } := by
    unfold audioReducer
    rw [if_pos hp]
  unfold dispatchAndRun
  dsimp only
  rw [hred, if_neg (by simp [playEffectDeps, hp])]
  rw [effectCleanup_of_none _ (by exact hsrc),
      runPlayEffect_not_playing _ _ (by simp)]

theorem toggle_playing_eq (s : EngineState) (hp : s.audioState.status = .playing) :
    handlePlayPauseToggle s =
      { detachAndClearSource s with
        audioState := { s.audioState with status := .paused } } := by
  unfold handlePlayPauseToggle
  rw [if_pos hp]
  rw [dispatch_pause_from_playing _ (by simp [hp]) (detachAndClearSource_sourceNode s)]
  simp

theorem toggle_not_playing_eq (s : EngineState)
    (hp : s.audioState.status ≠ .playing) :
    handlePlayPauseToggle s =
      dispatchAndRun s (.play (s.audioState.currentSegmentIndex.getD 0) true) := by
  unfold handlePlayPauseToggle
  rw [if_neg hp]

theorem dispatch_play_clean (s : EngineState) (k : Nat) (c : Bool)
    (hst : s.audioState.status ≠ .playing)
    (hsrc : s.sourceNode = none)
    (hcp : s.ctxPresent = true) (hsus : s.ctxSuspended = false)
    (hk : k < s.audioBuffers.length)
    (hbuf : s.audioBuffers.getD k none ≠ none) :
    dispatchAndRun s (.play k c) =
      startNewSource
        { s with audioState :=
            { status := .playing, currentSegmentIndex := some k,
              isContinuous := c } } k := by
  have hred : audioReducer s.audioState (.play k c) =
      { status := .playing, currentSegmentIndex := some k, isContinuous := c } := rfl
  unfold dispatchAndRun
  dsimp only
  rw [hred, if_neg (by
        intro heq
        have h1 : Status.playing = s.audioState.status :=
          congrArg (fun p => p.1) heq
        exact hst h1.symm)]
  have hbody := playOnce_start
      { s with audioState :=
          { status := .playing, currentSegmentIndex := some k, isContinuous := c } }
      k rfl rfl hk hcp hbuf (Or.inl hsus)
  rw [effectCleanup_of_none _ (by exact hsrc)]
  rw [runPlayEffect_pos_fix _ (by omega) _
      (by rw [hbody, playEffectDeps_startNewSource, playEffectDeps_stopPrevSource])]
  rw [hbody, stopPrevSource_of_none _ (by exact hsrc)]

theorem audioReducer_segmentEnded_advances (st : AudioState) (len i : Nat)
    (hi : st.currentSegmentIndex = some i) (hc : st.isContinuous = true)
    (hlt : i + 1 < len) :
    audioReducer st (.segmentEnded len) =
      { st with currentSegmentIndex := some (i + 1) } := by
  simp only [audioReducer, hi]
  rw [if_pos ⟨hc, by omega⟩]

theorem audioReducer_segmentEnded_stops (st : AudioState) (len i : Nat)
    (hi : st.currentSegmentIndex = some i)
    (h : ¬ ((st.isContinuous = true) ∧ (i : Int) < (len : Int) - 1)) :
    audioReducer st (.segmentEnded len) = initialAudioState := by
  simp only [audioReducer, hi]
  rw [if_neg h]

theorem feedEnd_eq_handleSourceEnded (s : EngineState) (u : SourceNode)
    (hsrc : s.sourceNode = some u) : feedEnd s = handleSourceEnded s u.id := by
  unfold feedEnd
  rw [hsrc]

theorem handleSourceEnded_current (s : EngineState) (u : SourceNode)
    (hsrc : s.sourceNode = some u) (hatt : u.onendedAttached = true) :
    handleSourceEnded s u.id =
      dispatchAndRun s (.segmentEnded s.audioBuffers.length) := by
  unfold handleSourceEnded
  rw [hsrc]
  exact if_pos ⟨rfl, hatt⟩

theorem feedEnd_to_initial (s : EngineState) (u : SourceNode)
    (hsrc : s.sourceNode = some u) (hatt : u.onendedAttached = true)
    (hp : s.audioState.status = .playing)
    (hred : audioReducer s.audioState (.segmentEnded s.audioBuffers.length) =
      initialAudioState) :
    feedEnd s = effectCleanup { s with audioState := initialAudioState } := by
  rw [feedEnd_eq_handleSourceEnded s u hsrc, handleSourceEnded_current s u hsrc hatt]
  unfold dispatchAndRun
  dsimp only
  rw [hred, if_neg (by simp [playEffectDeps, initialAudioState, hp])]
  rw [runPlayEffect_not_playing _ _ (by simp [initialAudioState])]

theorem feedEnd_advance (s : EngineState) (i : Nat) (u : SourceNode)
    (hA : s.audioState =
      { status := .playing, currentSegmentIndex := some i, isContinuous := true })
    (hsrc : s.sourceNode = some u) (hatt : u.onendedAttached = true)
    (hcp : s.ctxPresent = true) (hsus : s.ctxSuspended = false)
    (hlt : i + 1 < s.audioBuffers.length)
    (hbuf : s.audioBuffers.getD (i + 1) none ≠ none) :
    feedEnd s =
      startNewSource
        (stopPrevSource (effectCleanup
          { s with audioState :=
              { status := .playing, currentSegmentIndex := some (i + 1),
                isContinuous := true } }))
        (i + 1) := by
  rw [feedEnd_eq_handleSourceEnded s u hsrc, handleSourceEnded_current s u hsrc hatt]
  have hred : audioReducer s.audioState (.segmentEnded s.audioBuffers.length) =
      { status := .playing, currentSegmentIndex := some (i + 1),
        isContinuous := true } := by
    rw [audioReducer_segmentEnded_advances s.audioState _ i (by rw [hA]) (by rw [hA])
        hlt, hA]
  unfold dispatchAndRun
  dsimp only
  rw [hred, if_neg (by simp [playEffectDeps, hA])]
  have hbody := playOnce_start
      (effectCleanup
        { s with audioState :=
            { status := .playing, currentSegmentIndex := some (i + 1),
              isContinuous := true } })
      (i + 1) (by simp) (by simp) (by simpa using hlt) (by simpa using hcp)
      (by simpa using hbuf) (Or.inl (by simpa using hsus))
  rw [runPlayEffect_pos_fix _ (by omega) _
      (by rw [hbody, playEffectDeps_startNewSource, playEffectDeps_stopPrevSource]),
      hbody]

theorem handleSourceEnded_of_none (x : EngineState) (sid : Nat)
    (h : x.sourceNode = none) : handleSourceEnded x sid = x := by
  unfold handleSourceEnded
  rw [h]

/-- A concrete single-frame decoded buffer used for witness states. -/
def sampleBuffer : AudioBuffer :=
  { numberOfChannels := 1, length := 1, sampleRate := 24000, channelData := [0] }

/-! ## Claims C10, C9, C5, C1 -/

/-- C10: `stop()` from any state yields exactly the initial state
(`status = idle`, `currentIndex = null`, continuous cleared, no live
source) and is idempotent; calling it on an already reset engine leaves the
state unchanged. -/
theorem C10_stop_resets_and_is_idempotent (st : AudioState) (s : EngineState) :
    audioReducer st .stop = initialAudioState
    ∧ (stopAudio s).audioState = initialAudioState
    ∧ (stopAudio s).sourceNode = none
    ∧ stopAudio (stopAudio s) = stopAudio s
    ∧ (s.audioState = initialAudioState → s.sourceNode = none → stopAudio s = s) := by
  refine ⟨rfl, stopAudio_audioState s, stopAudio_sourceNode s, ?_, ?_⟩
  · rw [stopAudio_eq (stopAudio s),
        detachAndClearSource_of_none _ (stopAudio_sourceNode s),
        ← stopAudio_audioState s]
  · intro hstate hsrc
    rw [stopAudio_eq, detachAndClearSource_of_none _ hsrc, ← hstate]

theorem C10_witness : stopAudio (mkInitial [] 1) = mkInitial [] 1 :=
  (C10_stop_resets_and_is_idempotent initialAudioState (mkInitial [] 1)).2.2.2.2
    rfl rfl

/-- C9: `pause()` from `playing` changes only the status — the current index
and the continuous flag are retained — and clicking the currently playing
segment performs exactly this pause (it calls the play/pause toggle), so it
never changes `currentIndex`. -/
theorem C9_pause_retains_index (st : AudioState) (s : EngineState) (i : Nat) :
    (st.status = .playing →
      audioReducer st .pause =
        { status := .paused, currentSegmentIndex := st.currentSegmentIndex,
          isContinuous := st.isContinuous })
    ∧ (s.audioState.status = .playing → s.audioState.currentSegmentIndex = some i →
        handleSegmentClick s i = handlePlayPauseToggle s
        ∧ (handleSegmentClick s i).audioState =
            { status := .paused, currentSegmentIndex := some i,
              isContinuous := s.audioState.isContinuous }) := by
  constructor
  · intro hp
    unfold audioReducer
    rw [if_pos hp]
  · intro hp hi
    have hclick : handleSegmentClick s i = handlePlayPauseToggle s := by
      unfold handleSegmentClick
      rw [if_pos ⟨hp, hi⟩]
    refine ⟨hclick, ?_⟩
    rw [hclick, toggle_playing_eq s hp]
    simp [hi]

theorem C9_witness :
    (handleSegmentClick
        { mkInitial [some sampleBuffer] 1 with
          audioState := { status := .playing, currentSegmentIndex := some 0,
                          isContinuous := true },
          sourceNode := some { id := 0, bufferIndex := 0, rate := 1,
                               onendedAttached := true } } 0).audioState =
      { status := .paused, currentSegmentIndex := some 0, isContinuous := true } :=
  ((C9_pause_retains_index initialAudioState _ 0).2 rfl rfl).2

/-- C5: a natural-completion event from a superseded source never changes
the playback state: the completion callback dispatches only when its source
is still the currently registered, still-attached one, and `stop()`, pause
and story loading clear the source first, so a late completion afterwards is
silently ignored. -/
theorem C5_stale_completion_is_ignored (s : EngineState) (sid : Nat)
    (bufs : List (Option AudioBuffer)) :
    ((∀ src, s.sourceNode = some src → src.id = sid →
        src.onendedAttached = false) →
      handleSourceEnded s sid = s)
    ∧ handleSourceEnded (stopAudio s) sid = stopAudio s
    ∧ (s.audioState.status = .playing →
        handleSourceEnded (handlePlayPauseToggle s) sid = handlePlayPauseToggle s)
    ∧ handleSourceEnded (loadStory s bufs) sid = loadStory s bufs := by
  refine ⟨?_, ?_, ?_, ?_⟩
  · intro h
    unfold handleSourceEnded
    cases hsrc : s.sourceNode with
    | none => rfl
    | some u =>
        exact if_neg (by
          rintro ⟨h1, h2⟩
          rw [h u hsrc h1] at h2
          cases h2)
  · exact handleSourceEnded_of_none _ sid (stopAudio_sourceNode s)
  · intro hp
    apply handleSourceEnded_of_none
    rw [toggle_playing_eq s hp]
    exact detachAndClearSource_sourceNode s
  · apply handleSourceEnded_of_none
    unfold loadStory
    exact stopAudio_sourceNode s

theorem C5_witness : handleSourceEnded (mkInitial [] 1) 0 = mkInitial [] 1 :=
  (C5_stale_completion_is_ignored (mkInitial [] 1) 0 []).1
    (fun _ hsrc _ => Option.noConfusion hsrc)

/-- C1 (evaluating the code at the failing input): with one stored buffer,
after starting playback the live source has identity 0; issuing the
rate-change command with the new value 2 does not leave source 0 playing —
the play effect re-runs (its dependency array contains `playbackRate`),
`stop()` is called on source 0, and a new source 1 bound to the same buffer
is created and started from offset 0 at the new rate.  The claim that the
existing source keeps playing from its current position is therefore false
on the code, while the parts that the new rate reaches the live source
object and every subsequently created source do hold. -/
theorem C1_rate_change_restarts_current_segment :
    (handlePlayPauseToggle (mkInitial [some sampleBuffer] 1)).sourceNode =
        some { id := 0, bufferIndex := 0, rate := 1, onendedAttached := true }
    ∧ (handlePlayPauseToggle (mkInitial [some sampleBuffer] 1)).audioState =
        { status := .playing, currentSegmentIndex := some 0, isContinuous := true }
    ∧ (setPlaybackRate (handlePlayPauseToggle (mkInitial [some sampleBuffer] 1))
          2).sourceNode =
        some { id := 1, bufferIndex := 0, rate := 2, onendedAttached := true }
    ∧ (setPlaybackRate (handlePlayPauseToggle (mkInitial [some sampleBuffer] 1))
          2).log =
        [EngineEvent.started 0 0 1, EngineEvent.stopCalled 0,
         EngineEvent.started 1 0 2] := by
  refine ⟨?_, ?_, ?_, ?_⟩ <;> decide

@[simp]
theorem mkInitial_audioState (b : List (Option AudioBuffer)) (r : ℚ) :
    (mkInitial b r).audioState = initialAudioState := rfl

@[simp]
theorem mkInitial_audioBuffers (b : List (Option AudioBuffer)) (r : ℚ) :
    (mkInitial b r).audioBuffers = b := rfl

@[simp]
theorem mkInitial_sourceNode (b : List (Option AudioBuffer)) (r : ℚ) :
    (mkInitial b r).sourceNode = none := rfl

@[simp]
theorem mkInitial_playbackRate (b : List (Option AudioBuffer)) (r : ℚ) :
    (mkInitial b r).playbackRate = r := rfl

@[simp]
theorem mkInitial_ctxPresent (b : List (Option AudioBuffer)) (r : ℚ) :
    (mkInitial b r).ctxPresent = true := rfl

@[simp]
theorem mkInitial_ctxSuspended (b : List (Option AudioBuffer)) (r : ℚ) :
    (mkInitial b r).ctxSuspended = false := rfl

@[simp]
theorem mkInitial_nextId (b : List (Option AudioBuffer)) (r : ℚ) :
    (mkInitial b r).nextId = 0 := rfl

theorem getD_map_some_ne_none (l : List AudioBuffer) (j : Nat)
    (hj : j < l.length) : (l.map some).getD j none ≠ none := by
  have h : (l.map some).getD j none = some l[j] := by
    rw [List.getD_eq_getElem?_getD, List.getElem?_map, List.getElem?_eq_getElem hj]
    rfl
  rw [h]
  simp

theorem dispatch_play_any (s : EngineState) (k : Nat) (c : Bool)
    (hst : s.audioState.status ≠ .playing)
    (hcp : s.ctxPresent = true) (hsus : s.ctxSuspended = false)
    (hk : k < s.audioBuffers.length)
    (hbuf : s.audioBuffers.getD k none ≠ none) :
    dispatchAndRun s (.play k c) =
      startNewSource
        (stopPrevSource (effectCleanup
          { s with audioState :=
              { status := .playing, currentSegmentIndex := some k,
                isContinuous := c } })) k := by
  have hred : audioReducer s.audioState (.play k c) =
      { status := .playing, currentSegmentIndex := some k,
        isContinuous := c } := rfl
  unfold dispatchAndRun
  dsimp only
  rw [hred, if_neg (by
        intro heq
        have h1 : Status.playing = s.audioState.status :=
          congrArg (fun p => p.1) heq
        exact hst h1.symm)]
  have hbody := playOnce_start
      (effectCleanup
        { s with audioState :=
            { status := .playing, currentSegmentIndex := some k,
              isContinuous := c } })
      k (by simp) (by simp) (by simpa using hk) (by simpa using hcp)
      (by simpa using hbuf) (Or.inl (by simpa using hsus))
  rw [runPlayEffect_pos_fix _ (by omega) _
      (by rw [hbody, playEffectDeps_startNewSource, playEffectDeps_stopPrevSource]),
      hbody]

theorem toggle_from_initial (t : EngineState)
    (hA : t.audioState = initialAudioState)
    (hcp : t.ctxPresent = true) (hsus : t.ctxSuspended = false)
    (hlen : 0 < t.audioBuffers.length)
    (hbuf : t.audioBuffers.getD 0 none ≠ none) :
    (handlePlayPauseToggle t).audioState =
      { status := .playing, currentSegmentIndex := some 0,
        isContinuous := true } := by
  rw [toggle_not_playing_eq t (by rw [hA]; decide)]
  have hgd : t.audioState.currentSegmentIndex.getD 0 = 0 := by
    rw [hA]
    rfl
  rw [hgd, dispatch_play_any t 0 true (by rw [hA]; decide) hcp hsus hlen hbuf]
  simp

/-- C8: for every buffer list and valid start index, clicking that segment
starts single-segment play (continuous = false), exactly one natural
completion returns the machine to the initial state (idle, null index,
continuous cleared), and a subsequent toggle starts continuous playback
from index 0 — regardless of the number of buffers. -/
theorem C8_single_play_one_completion (bufs : List AudioBuffer) (r : ℚ) (i : Nat)
    (hi : i < bufs.length) :
    (handleSegmentClick (mkInitial (bufs.map some) r) i).audioState =
        { status := .playing, currentSegmentIndex := some i, isContinuous := false }
    ∧ (feedEnd (handleSegmentClick (mkInitial (bufs.map some) r) i)).audioState =
        initialAudioState
    ∧ (handlePlayPauseToggle
          (feedEnd (handleSegmentClick (mkInitial (bufs.map some) r) i))).audioState =
        { status := .playing, currentSegmentIndex := some 0,
          isContinuous := true } := by
  have hclick : handleSegmentClick (mkInitial (bufs.map some) r) i =
      dispatchAndRun (mkInitial (bufs.map some) r) (.play i false) := by
    unfold handleSegmentClick
    rw [if_neg (by rintro ⟨h, -⟩; simp [initialAudioState] at h)]
  have h0 : dispatchAndRun (mkInitial (bufs.map some) r) (.play i false) =
      startNewSource
        (stopPrevSource (effectCleanup
          { mkInitial (bufs.map some) r with
            audioState := { status := .playing, currentSegmentIndex := some i,
                            isContinuous := false } })) i :=
    dispatch_play_any _ i false (by simp [initialAudioState]) rfl rfl (by simpa using hi)
      (by
        have h2 : (mkInitial (bufs.map some) r).audioBuffers = bufs.map some := rfl
        rw [h2]
        exact getD_map_some_ne_none bufs i hi)
  have hA : (startNewSource
      (stopPrevSource (effectCleanup
        { mkInitial (bufs.map some) r with
          audioState := { status := .playing, currentSegmentIndex := some i,
                          isContinuous := false } })) i).audioState =
      { status := .playing, currentSegmentIndex := some i,
        isContinuous := false } := by simp
  have hred : audioReducer
      (startNewSource
        (stopPrevSource (effectCleanup
          { mkInitial (bufs.map some) r with
            audioState := { status := .playing, currentSegmentIndex := some i,
                            isContinuous := false } })) i).audioState
      (.segmentEnded
        (startNewSource
          (stopPrevSource (effectCleanup
            { mkInitial (bufs.map some) r with
              audioState := { status := .playing, currentSegmentIndex := some i,
                              isContinuous := false } })) i).audioBuffers.length) =
      initialAudioState := by
    apply audioReducer_segmentEnded_stops _ _ i (by rw [hA])
    rintro ⟨hcont, -⟩
    rw [hA] at hcont
    cases hcont
  have hfe := feedEnd_to_initial _ _ (startNewSource_sourceNode _ i) rfl
      (by rw [hA]) hred
  refine ⟨?_, ?_, ?_⟩
  · rw [hclick, h0, hA]
  · rw [hclick, h0, hfe]
    simp
  · rw [hclick, h0, hfe]
    apply toggle_from_initial
    · simp
    · simp
    · simp
    · simp
      omega
    · have h2 : (effectCleanup
          { startNewSource
              (stopPrevSource (effectCleanup
                { mkInitial (bufs.map some) r with
                  audioState := { status := .playing,
                                  currentSegmentIndex := some i,
                                  isContinuous := false } })) i with
            audioState := initialAudioState }).audioBuffers = bufs.map some := by
        simp
      rw [h2]
      exact getD_map_some_ne_none bufs 0 (by omega)

theorem C8_witness :
    (feedEnd (handleSegmentClick (mkInitial ([sampleBuffer].map some) 1) 0)).audioState =
      initialAudioState :=
  (C8_single_play_one_completion [sampleBuffer] 1 0 (by decide)).2.1

/-- A state in the middle of continuous playback: playing at index `i` with
a live attached source bound to buffer `i`, over the buffer store `B`, with
a present, running audio context. -/
def PlayingAt (B : List (Option AudioBuffer)) (i : Nat) (s : EngineState) : Prop :=
  s.audioState = { status := .playing, currentSegmentIndex := some i,
                   isContinuous := true }
  ∧ (∃ src, s.sourceNode = some src ∧ src.onendedAttached = true
      ∧ src.bufferIndex = i)
  ∧ s.audioBuffers = B ∧ s.ctxPresent = true ∧ s.ctxSuspended = false

theorem feedEnd_playingAt_advance (B : List (Option AudioBuffer)) (i : Nat)
    (s : EngineState) (hB : ∀ j, j < B.length → B.getD j none ≠ none)
    (h : PlayingAt B i s) (hlt : i + 1 < B.length) :
    PlayingAt B (i + 1) (feedEnd s) := by
  obtain ⟨hA, ⟨u, hsrc, hatt, hbi⟩, hbufs, hcp, hsus⟩ := h
  have hfe := feedEnd_advance s i u hA hsrc hatt hcp hsus
      (by rw [hbufs]; exact hlt) (by rw [hbufs]; exact hB _ hlt)
  rw [hfe]
  exact ⟨by simp, ⟨_, startNewSource_sourceNode _ _, rfl, rfl⟩, by simp [hbufs],
    by simp [hcp], by simp⟩

theorem feedEnd_playingAt_last (B : List (Option AudioBuffer)) (i : Nat)
    (s : EngineState) (h : PlayingAt B i s) (hge : B.length ≤ i + 1) :
    (feedEnd s).audioState = initialAudioState := by
  obtain ⟨hA, ⟨u, hsrc, hatt, hbi⟩, hbufs, hcp, hsus⟩ := h
  have hred : audioReducer s.audioState (.segmentEnded s.audioBuffers.length) =
      initialAudioState := by
    apply audioReducer_segmentEnded_stops _ _ i (by rw [hA])
    rintro ⟨-, hlt⟩
    rw [hbufs] at hlt
    omega
  rw [feedEnd_to_initial s u hsrc hatt (by rw [hA]) hred]
  simp

theorem playingAt_iterate (B : List (Option AudioBuffer))
    (hB : ∀ j, j < B.length → B.getD j none ≠ none) :
    ∀ (m k : Nat) (s : EngineState), PlayingAt B k s → k + m < B.length →
      PlayingAt B (k + m) (feedEnd^[m] s) := by
  intro m
  induction m with
  | zero =>
      intro k s h _
      simpa using h
  | succ m ih =>
      intro k s h hlt
      rw [Function.iterate_succ_apply']
      exact feedEnd_playingAt_advance B (k + m) _ hB
        (ih k s h (by omega)) (by omega)

theorem play_start_playingAt (B : List (Option AudioBuffer)) (r : ℚ) (k : Nat)
    (hk : k < B.length) (hbuf : B.getD k none ≠ none) :
    PlayingAt B k (dispatchAndRun (mkInitial B r) (.play k true)) := by
  rw [dispatch_play_any _ k true (by simp [initialAudioState]) rfl rfl
      (by simpa using hk) (by simpa using hbuf)]
  exact ⟨by simp, ⟨_, startNewSource_sourceNode _ _, rfl, rfl⟩, by simp, by simp,
    by simp⟩

/-- C3: starting continuous playback at a valid index `k` and feeding one
natural completion per segment makes `currentIndex` take the values
`k, k+1, …, N-1` exactly once in increasing order (after `m` completions the
machine is playing buffer `k+m` with a live source), and the completion at
the last buffer returns the machine to the initial state.  In particular,
with four payloads whose third is empty, `rehydrate` stores three buffers
and playback from 0 starts buffers 0, 1, 2 in order — skipping the missing
segment — and then reaches idle. -/
theorem C3_continuous_playback_in_order (bufs : List AudioBuffer) (r : ℚ) (k : Nat)
    (hk : k < bufs.length) :
    (∀ m, k + m < bufs.length →
        (feedEnd^[m] (dispatchAndRun (mkInitial (bufs.map some) r)
            (.play k true))).audioState =
          { status := .playing, currentSegmentIndex := some (k + m),
            isContinuous := true }
        ∧ ∃ src, (feedEnd^[m] (dispatchAndRun (mkInitial (bufs.map some) r)
              (.play k true))).sourceNode = some src
            ∧ src.bufferIndex = k + m ∧ src.onendedAttached = true)
    ∧ (feedEnd^[bufs.length - k] (dispatchAndRun (mkInitial (bufs.map some) r)
          (.play k true))).audioState = initialAudioState
    ∧ (rehydrateAudio ["AAA=", "AAA=", "", "AAA="] 24000).length = 3
    ∧ startedEvents (feedEnd^[3] (dispatchAndRun
          (mkInitial ((rehydrateAudio ["AAA=", "AAA=", "", "AAA="] 24000).map some)
            1) (.play 0 true))).log =
        [EngineEvent.started 0 0 1, EngineEvent.started 1 1 1,
         EngineEvent.started 2 2 1]
    ∧ (feedEnd^[3] (dispatchAndRun
          (mkInitial ((rehydrateAudio ["AAA=", "AAA=", "", "AAA="] 24000).map some)
            1) (.play 0 true))).audioState = initialAudioState := by
  have hB : ∀ j, j < (bufs.map some).length →
      (bufs.map some).getD j none ≠ none := by
    intro j hj
    exact getD_map_some_ne_none bufs j (by simpa using hj)
  have hstart := play_start_playingAt (bufs.map some) r k (by simpa using hk)
      (getD_map_some_ne_none bufs k hk)
  refine ⟨?_, ?_, by decide, by decide, by decide⟩
  · intro m hm
    have h := playingAt_iterate (bufs.map some) hB m k _ hstart (by simpa using hm)
    obtain ⟨h1, ⟨src, h2, h3, h4⟩, -⟩ := h
    exact ⟨h1, src, h2, h4, h3⟩
  · have hm' : bufs.length - k = (bufs.length - k - 1) + 1 := by omega
    rw [hm', Function.iterate_succ_apply']
    apply feedEnd_playingAt_last (bufs.map some) (k + (bufs.length - k - 1))
    · exact playingAt_iterate (bufs.map some) hB _ k _ hstart (by simp; omega)
    · simp
      omega

theorem C3_witness :
    (feedEnd^[1] (dispatchAndRun (mkInitial ([sampleBuffer].map some) 1)
        (.play 0 true))).audioState = initialAudioState :=
  (C3_continuous_playback_in_order [sampleBuffer] 1 0 (by decide)).2.1

theorem playFuel_le (s : EngineState) :
    playFuel s ≤ s.audioBuffers.length + 2 := by
  unfold playFuel
  split <;> omega

/-- C6: when the machine is playing at an index whose buffer slot is empty,
the play effect produces no sound (no `start` call is logged) and
immediately applies end-of-segment logic — in continuous mode it advances to
the next index or ends the story, in single-segment mode it returns to the
initial state; when the index is at or past the end of the store it goes to
the initial state (natural end of story, no error).  In either situation the
machine never stays in `playing` without a live attached source: whenever
the effect loop settles in `playing`, a live source with its completion
callback attached exists. -/
theorem C6_missing_buffer_and_past_end (s : EngineState) (i : Nat)
    (hp : s.audioState.status = .playing)
    (hi : s.audioState.currentSegmentIndex = some i) :
    (i < s.audioBuffers.length → s.audioBuffers.getD i none = none →
      startedEvents (playCurrentSegmentOnce s).log = startedEvents s.log
      ∧ (s.audioState.isContinuous = true →
          (playCurrentSegmentOnce s).audioState =
            (if i + 1 < s.audioBuffers.length then
              { s.audioState with currentSegmentIndex := some (i + 1) }
             else initialAudioState))
      ∧ (s.audioState.isContinuous = false →
          (playCurrentSegmentOnce s).audioState = initialAudioState))
    ∧ (s.audioBuffers.length ≤ i →
        (playCurrentSegmentOnce s).audioState = initialAudioState
        ∧ startedEvents (playCurrentSegmentOnce s).log = startedEvents s.log)
    ∧ ((runPlayEffect (s.audioBuffers.length + 2)
            (effectCleanup s)).audioState.status = .playing →
        ∃ src, (runPlayEffect (s.audioBuffers.length + 2)
              (effectCleanup s)).sourceNode = some src
          ∧ src.onendedAttached = true) := by
  refine ⟨?_, ?_, ?_⟩
  · intro hl hmiss
    refine ⟨?_, ?_, ?_⟩
    · cases hc : s.audioState.isContinuous with
      | true =>
          rw [playOnce_missing_continuous s i hp hi hl (Or.inr hmiss) hc]
          exact stopPrevSource_startedEvents s
      | false =>
          rw [playOnce_missing_single s i hp hi hl (Or.inr hmiss) hc]
          exact stopPrevSource_startedEvents s
    · intro hc
      rw [playOnce_missing_continuous s i hp hi hl (Or.inr hmiss) hc]
      by_cases hlt : i + 1 < s.audioBuffers.length
      · rw [if_pos hlt]
        exact audioReducer_segmentEnded_advances s.audioState _ i hi hc hlt
      · rw [if_neg hlt]
        exact audioReducer_segmentEnded_stops s.audioState _ i hi
          (by rintro ⟨-, hx⟩; omega)
    · intro hc
      rw [playOnce_missing_single s i hp hi hl (Or.inr hmiss) hc]
  · intro hge
    rw [playOnce_past_end s i hp hi hge]
    exact ⟨rfl, rfl⟩
  · intro hps
    have hfuel : playFuel (effectCleanup s) ≤ s.audioBuffers.length + 2 := by
      have h := playFuel_le (effectCleanup s)
      rwa [effectCleanup_audioBuffers] at h
    have hs := runPlayEffect_settles (s.audioBuffers.length + 2) (effectCleanup s)
        hfuel
        (fun _ => ⟨i, by rw [effectCleanup_audioState]; exact hi⟩)
        (fun hnp => absurd (by rw [effectCleanup_audioState]; exact hp) hnp)
    exact (hs.2 hps).2

theorem C6_witness :
    (playCurrentSegmentOnce
        { mkInitial [some sampleBuffer, none] 1 with
          audioState := { status := .playing, currentSegmentIndex := some 1,
                          isContinuous := false } }).audioState =
      initialAudioState :=
  ((C6_missing_buffer_and_past_end _ 1 rfl rfl).1 (by decide) (by decide)).2.2 rfl

/-! ## The reachable-state invariant (claim C2) -/

/-- The invariant maintained by every input: the current index is null or in
range, and `playing` always carries a non-null index. -/
def EngineInv (s : EngineState) : Prop :=
  indexOk s ∧
  (s.audioState.status = .playing →
    ∃ i, s.audioState.currentSegmentIndex = some i)

theorem indexOkA_congr (st st2 : AudioState) (len len2 : Nat)
    (h1 : st.currentSegmentIndex = st2.currentSegmentIndex) (h2 : len = len2) :
    indexOkA st len ↔ indexOkA st2 len2 := by
  unfold indexOkA
  rw [h1, h2]

theorem EngineInv_of_initial (t : EngineState)
    (h : t.audioState = initialAudioState) : EngineInv t := by
  constructor
  · exact (indexOkA_congr _ initialAudioState _ t.audioBuffers.length
      (by rw [h]) rfl).mpr trivial
  · intro hp
    rw [h] at hp
    cases hp

@[simp]
theorem applyRate_audioState (s : EngineState) (r : ℚ) :
    (applyRateToLiveSource s r).audioState = s.audioState := by
  unfold applyRateToLiveSource
  split <;> rfl

@[simp]
theorem applyRate_audioBuffers (s : EngineState) (r : ℚ) :
    (applyRateToLiveSource s r).audioBuffers = s.audioBuffers := by
  unfold applyRateToLiveSource
  split <;> rfl

theorem audioReducer_playing_some (st : AudioState) (a : AudioAction)
    (h : st.status = .playing → ∃ i, st.currentSegmentIndex = some i)
    (hp : (audioReducer st a).status = .playing) :
    ∃ i, (audioReducer st a).currentSegmentIndex = some i := by
  cases a with
  | play j c => exact ⟨j, rfl⟩
  | pause =>
      by_cases hc : st.status = .playing
      · have he : audioReducer st .pause = { st with status := .paused } := by
          unfold audioReducer
          rw [if_pos hc]
        rw [he] at hp
        exact absurd hp (by simp)
      · have he : audioReducer st .pause = st := by
          unfold audioReducer
          rw [if_neg hc]
        rw [he] at hp ⊢
        exact h hp
  | stop =>
      rw [show audioReducer st .stop = initialAudioState from rfl] at hp
      exact absurd hp (by decide)
  | segmentEnded n =>
      cases hidx : st.currentSegmentIndex with
      | none =>
          have he : audioReducer st (.segmentEnded n) = initialAudioState := by
            simp only [audioReducer, hidx]
          rw [he] at hp
          exact absurd hp (by decide)
      | some j =>
          by_cases hcond : (st.isContinuous = true) ∧ (j : Int) < (n : Int) - 1
          · rw [audioReducer_segmentEnded_advances st n j hidx hcond.1 (by omega)]
            exact ⟨j + 1, rfl⟩
          · rw [audioReducer_segmentEnded_stops st n j hidx hcond] at hp
            exact absurd hp (by decide)

theorem audioReducer_indexOkA (st : AudioState) (a : AudioAction) (len : Nat)
    (hok : indexOkA st len)
    (hn : ∀ n, a = AudioAction.segmentEnded n → n ≤ len)
    (hnp : (audioReducer st a).status ≠ .playing) :
    indexOkA (audioReducer st a) len := by
  cases a with
  | play j c => exact absurd rfl hnp
  | pause =>
      by_cases hc : st.status = .playing
      · have he : audioReducer st .pause = { st with status := .paused } := by
          unfold audioReducer
          rw [if_pos hc]
        rw [he]
        exact (indexOkA_congr _ st _ len rfl rfl).mpr hok
      · have he : audioReducer st .pause = st := by
          unfold audioReducer
          rw [if_neg hc]
        rw [he]
        exact hok
  | stop =>
      rw [show audioReducer st .stop = initialAudioState from rfl]
      exact trivial
  | segmentEnded n =>
      cases hidx : st.currentSegmentIndex with
      | none =>
          rw [show audioReducer st (.segmentEnded n) = initialAudioState from by
            simp only [audioReducer, hidx]]
          exact trivial
      | some j =>
          by_cases hcond : (st.isContinuous = true) ∧ (j : Int) < (n : Int) - 1
          · rw [audioReducer_segmentEnded_advances st n j hidx hcond.1 (by omega)]
            have hn' := hn n rfl
            show j + 1 < len
            omega
          · rw [audioReducer_segmentEnded_stops st n j hidx hcond]
            exact trivial

theorem dispatchAndRun_inv (s : EngineState) (a : AudioAction)
    (hinv : EngineInv s)
    (hn : ∀ n, a = AudioAction.segmentEnded n → n ≤ s.audioBuffers.length) :
    EngineInv (dispatchAndRun s a) := by
  unfold dispatchAndRun
  dsimp only
  split
  case isTrue heq =>
    have hst : (audioReducer s.audioState a).status = s.audioState.status :=
      congrArg (fun p => p.1) heq
    have hidx : (audioReducer s.audioState a).currentSegmentIndex =
        s.audioState.currentSegmentIndex := congrArg (fun p => p.2.1) heq
    constructor
    · exact (indexOkA_congr _ s.audioState _ s.audioBuffers.length hidx rfl).mpr
        hinv.1
    · intro hp
      obtain ⟨j, hj⟩ := hinv.2 (hst ▸ hp)
      exact ⟨j, hidx.trans hj⟩
  case isFalse heq =>
    have hfuel : playFuel
        (effectCleanup { s with audioState := audioReducer s.audioState a }) ≤
        s.audioBuffers.length + 2 := by
      have h := playFuel_le
        (effectCleanup { s with audioState := audioReducer s.audioState a })
      rwa [effectCleanup_audioBuffers] at h
    have hs := runPlayEffect_settles (s.audioBuffers.length + 2)
        (effectCleanup { s with audioState := audioReducer s.audioState a })
        hfuel
        (fun hp => by
          have hp' : (audioReducer s.audioState a).status = .playing := by
            rw [effectCleanup_audioState] at hp
            exact hp
          obtain ⟨j, hj⟩ := audioReducer_playing_some s.audioState a hinv.2 hp'
          exact ⟨j, by rw [effectCleanup_audioState]; exact hj⟩)
        (fun hnp => by
          have hnp' : (audioReducer s.audioState a).status ≠ .playing := by
            intro hcon
            exact hnp (by rw [effectCleanup_audioState]; exact hcon)
          exact (indexOkA_congr _ (audioReducer s.audioState a) _
              s.audioBuffers.length (by rw [effectCleanup_audioState])
              (by rw [effectCleanup_audioBuffers])).mpr
            (audioReducer_indexOkA s.audioState a s.audioBuffers.length hinv.1
              hn hnp'))
    exact ⟨hs.1, fun hp => (hs.2 hp).1⟩

theorem handlePlayPauseToggle_inv (s : EngineState) (hinv : EngineInv s) :
    EngineInv (handlePlayPauseToggle s) := by
  by_cases hp : s.audioState.status = .playing
  · rw [toggle_playing_eq s hp]
    constructor
    · exact (indexOkA_congr _ s.audioState _ s.audioBuffers.length rfl
        (by simp)).mpr hinv.1
    · intro hq
      simp at hq
  · rw [toggle_not_playing_eq s hp]
    exact dispatchAndRun_inv s _ hinv (fun n h => nomatch h)

theorem stepEvent_inv (s : EngineState) (e : InputEvent) (hinv : EngineInv s) :
    EngineInv (stepEvent s e) := by
  cases e with
  | togglePlayPause => exact handlePlayPauseToggle_inv s hinv
  | segmentClick i =>
      show EngineInv (handleSegmentClick s i)
      by_cases hcond : s.audioState.status = .playing ∧
          s.audioState.currentSegmentIndex = some i
      · rw [show handleSegmentClick s i = handlePlayPauseToggle s from by
          unfold handleSegmentClick
          rw [if_pos hcond]]
        exact handlePlayPauseToggle_inv s hinv
      · rw [show handleSegmentClick s i = dispatchAndRun s (.play i false) from by
          unfold handleSegmentClick
          rw [if_neg hcond]]
        exact dispatchAndRun_inv s _ hinv (fun n h => nomatch h)
  | stopClick => exact EngineInv_of_initial _ (stopAudio_audioState s)
  | setRate r =>
      show EngineInv (setPlaybackRate s r)
      unfold setPlaybackRate
      dsimp only
      split
      · exact hinv
      · have hfuel : playFuel (effectCleanup
            (applyRateToLiveSource { s with playbackRate := r } r)) ≤
            s.audioBuffers.length + 2 := by
          have h := playFuel_le (effectCleanup
            (applyRateToLiveSource { s with playbackRate := r } r))
          rwa [effectCleanup_audioBuffers, applyRate_audioBuffers] at h
        have hs := runPlayEffect_settles (s.audioBuffers.length + 2)
            (effectCleanup (applyRateToLiveSource { s with playbackRate := r } r))
            hfuel
            (fun hp => by
              rw [effectCleanup_audioState, applyRate_audioState] at hp
              obtain ⟨j, hj⟩ := hinv.2 hp
              exact ⟨j, by
                rw [effectCleanup_audioState, applyRate_audioState]
                exact hj⟩)
            (fun hnp => by
              exact (indexOkA_congr _ s.audioState _ s.audioBuffers.length
                  (by rw [effectCleanup_audioState, applyRate_audioState])
                  (by rw [effectCleanup_audioBuffers, applyRate_audioBuffers])).mpr
                hinv.1)
        have hlen : (applyRateToLiveSource { s with playbackRate := r }
            r).audioBuffers.length = s.audioBuffers.length := by
          rw [applyRate_audioBuffers]
        rw [hlen]
        exact ⟨hs.1, fun hp => (hs.2 hp).1⟩
  | sourceEnded sid =>
      show EngineInv (handleSourceEnded s sid)
      cases hsrc : s.sourceNode with
      | none => rw [handleSourceEnded_of_none s sid hsrc]; exact hinv
      | some u =>
          by_cases hcond : u.id = sid ∧ u.onendedAttached = true
          · rw [show handleSourceEnded s sid =
                dispatchAndRun s (.segmentEnded s.audioBuffers.length) from by
              unfold handleSourceEnded
              rw [hsrc]
              exact if_pos hcond]
            exact dispatchAndRun_inv s _ hinv (by
              intro n h
              injection h with h2
              omega)
          · rw [show handleSourceEnded s sid = s from by
              unfold handleSourceEnded
              rw [hsrc]
              exact if_neg hcond]
            exact hinv
  | newStory bufs => exact EngineInv_of_initial _ (stopAudio_audioState s)

/-- C2: in every state reachable from a freshly loaded story — under any
sequence of toggle, segment-click (including transcript indices past the end
of the compacted store), stop, rate-change, natural-completion and
story-load inputs — `currentSegmentIndex` is either null or a valid index
into the current Segment Buffer Store. -/
theorem C2_currentIndex_null_or_valid (bufs : List (Option AudioBuffer)) (r : ℚ)
    (events : List InputEvent) :
    indexOk (events.foldl stepEvent (mkInitial bufs r)) := by
  suffices h : ∀ s, EngineInv s → EngineInv (events.foldl stepEvent s) by
    exact (h (mkInitial bufs r) (EngineInv_of_initial _ rfl)).1
  induction events with
  | nil => exact fun s hs => hs
  | cons e t ih => exact fun s hs => ih (stepEvent s e) (stepEvent_inv s e hs)

theorem C2_witness :
    indexOk ([InputEvent.segmentClick 5].foldl stepEvent
      (mkInitial [some sampleBuffer] 1)) :=
  C2_currentIndex_null_or_valid [some sampleBuffer] 1 [InputEvent.segmentClick 5]
